import Mathlib

/-!
Verification of the sample extension plugin (src/sample-extension/sample.c)
of the irc-core repository.

The C file is embedded shallowly:

  - bytes are natural numbers;
  - a C length-counted string (struct glirc_string) is a list of bytes
    together with a length field;
  - the file system is a map from file names to byte contents, plus a
    predicate saying which names can currently be opened (capturing that
    fopen may fail);
  - an open stream (FILE) records the file name, the mode it was opened
    with, the bytes written but not yet flushed (the stdio buffer), and
    the stream position;
  - fopen, fflush, fclose, fprintf of a string plus newline, and strndup
    are modelled as pure state transformers;
  - start, stop and process_message are translated line by line from
    sample.c on top of these.
-/

namespace SampleExtension

/-- A byte value. -/
abbrev Byte := Nat

/-- The NUL byte and the newline byte. -/
def nulByte : Byte := 0

def newlineByte : Byte := 10

/-- Length-counted string of the host API: a pointer to bytes together
with a length.  The list holds the bytes reachable from the pointer. -/
structure glirc_string where
  str : List Byte
  len : Nat
deriving DecidableEq, Repr

/-- Modelled from the spec: the header glirc-api.h that declares struct
glirc_message is not under src/.  Per the spec a message carries a prefix
(field pfx here), the command, the parameters and the tags; sample.c reads
only the command field. -/
structure glirc_message where
  pfx : glirc_string
  command : glirc_string
  params : List glirc_string
  tags : List (glirc_string × glirc_string)
deriving DecidableEq, Repr

/-- The file system: contents of every file, and which names fopen can
currently open (to model that fopen may fail and return NULL). -/
structure FS where
  files : String → List Byte
  canOpen : String → Bool

/-- Update the contents of one file. -/
def FS.setFile (fs : FS) (n : String) (c : List Byte) : FS :=
  { fs with files := fun m => if m = n then c else fs.files m }

/-- An open stdio stream: the name of the underlying file, the mode it
was opened with, the bytes written but not yet flushed, and the stream
position. -/
structure FILE where
  name : String
  mode : String
  buffer : List Byte
  pos : Nat
deriving Repr

/-- fopen: when the name can be opened, returns a fresh stream at
position 0; mode "w" truncates the file.  Otherwise returns none (NULL)
and leaves the file system unchanged. -/
def fopen (fs : FS) (n : String) (mode : String) : Option FILE × FS :=
  if fs.canOpen n then
    (some { name := n, mode := mode, buffer := [], pos := 0 },
     if mode = "w" then fs.setFile n [] else fs)
  else
    (none, fs)

/-- fflush: append the buffered bytes to the underlying file and empty
the buffer. -/
def fflush (h : FILE) (fs : FS) : FILE × FS :=
  ({ h with buffer := [] }, fs.setFile h.name (fs.files h.name ++ h.buffer))

/-- fclose: flush the remaining buffered bytes; the handle is gone
afterwards, so only the file system is returned. -/
def fclose (h : FILE) (fs : FS) : FS :=
  (fflush h fs).2

/-- fprintf(file, "%s\n", s): append the bytes of the NUL-terminated
string s and a newline to the buffer, advancing the position. -/
def fprintf_s_newline (h : FILE) (s : List Byte) : FILE :=
  { h with
    buffer := h.buffer ++ s ++ [newlineByte]
    pos := h.pos + s.length + 1 }

/-- strndup(s, n) viewed as the byte content of the resulting
NUL-terminated C string: at most the first n bytes, cut at the first NUL
if one occurs among them. -/
def strndup (s : List Byte) (n : Nat) : List Byte :=
  (s.take n).takeWhile (fun b => b != nulByte)

/-- static void *start(void): open "sample-output.txt" for writing and
return whatever fopen returned, NULL included. -/
def start (fs : FS) : Option FILE × FS :=
  fopen fs "sample-output.txt" "w"

/-- static void stop(void *S): close the handle, with no check of S. -/
def stop (S : FILE) (fs : FS) : FS :=
  fclose S fs

/-- static void process_message(void *S, struct glirc_message *msg):
duplicate the command bytes with strndup, print them and a newline to
the stream, flush.  The message is returned as well to express that the
function never writes through the msg pointer. -/
def process_message (S : FILE) (fs : FS) (msg : glirc_message) :
    (FILE × FS) × glirc_message :=
  let file := S
  let cmd := strndup msg.command.str msg.command.len
  let file := fprintf_s_newline file cmd
  (fflush file fs, msg)

/-- Modelled from the spec: glirc-api.h is not under src/; the spec names
exactly three lifecycle hooks, so the extension record carries exactly a
start hook, a stop hook and a message-handler hook. -/
structure glirc_extension where
  start : FS → Option FILE × FS
  stop : FILE → FS → FS
  process_message : FILE → FS → glirc_message → (FILE × FS) × glirc_message

/-- struct glirc_extension extension = { .start = start, .stop = stop,
.process_message = process_message }; -/
def extension : glirc_extension :=
  { start := start, stop := stop, process_message := process_message }

/-- All bytes ever written to the stream: the flushed ones followed by
the buffered ones. -/
def stream (h : FILE) (fs : FS) : List Byte :=
  fs.files h.name ++ h.buffer

/-- One host step: deliver one message to the plugin. -/
def step (p : FILE × FS) (m : glirc_message) : FILE × FS :=
  (process_message p.1 p.2 m).1

/-- A whole run of the plugin: start, then deliver the given messages in
order.  Returns none when start returned NULL. -/
def run (fs0 : FS) (msgs : List glirc_message) : Option (FILE × FS) :=
  match start fs0 with
  | (some h, fs) => some (msgs.foldl step (h, fs))
  | (none, _) => none

/-- The stream of a handle and file-system pair. -/
def streamP (p : FILE × FS) : List Byte :=
  stream p.1 p.2

/-- A file system whose files are all empty and where every open
succeeds. -/
def logFS : FS :=
  { files := fun _ => [], canOpen := fun _ => true }

/-- A file system where every fopen fails. -/
def noOpenFS : FS :=
  { files := fun _ => [], canOpen := fun _ => false }

/-- A file system in which the log file still holds bytes from a
previous run. -/
def staleFS : FS :=
  { files := fun _ => [1, 2, 3], canOpen := fun _ => true }

/-- The handle start returns on success. -/
def logFILE : FILE :=
  { name := "sample-output.txt", mode := "w", buffer := [], pos := 0 }

/-- A message whose command is PING (bytes 80 73 78 71, length 4). -/
def msgPing : glirc_message :=
  { pfx := ⟨[], 0⟩, command := ⟨[80, 73, 78, 71], 4⟩, params := [], tags := [] }

/-- A message equal to msgPing on the command but with a different
remainder (nonempty parameters and tags). -/
def msgPing2 : glirc_message :=
  { pfx := ⟨[99], 1⟩, command := ⟨[80, 73, 78, 71], 4⟩,
    params := [⟨[120], 1⟩], tags := [(⟨[121], 1⟩, ⟨[122], 1⟩)] }

/-- A message whose command bytes hold a NUL at index 1, below the
length 3. -/
def msgNulCmd : glirc_message :=
  { pfx := ⟨[], 0⟩, command := ⟨[65, 0, 66], 3⟩, params := [], tags := [] }

/-- The state reached by starting in logFS and delivering one PING. -/
def reachedState : FILE × FS :=
  (run logFS [msgPing]).getD (logFILE, logFS)

end SampleExtension

namespace SampleExtension

theorem FS.setFile_self (fs : FS) (n : String) :
    fs.setFile n (fs.files n) = fs := by
  cases fs with
  | mk files canOpen =>
    simp only [FS.setFile, FS.mk.injEq, and_true]
    funext m
    by_cases hm : m = n
    · subst hm; simp
    · simp [hm]

theorem process_message_stream (S : FILE) (fs : FS) (msg : glirc_message) :
    streamP (process_message S fs msg).1 =
      stream S fs ++ (strndup msg.command.str msg.command.len ++ [newlineByte]) := by
  simp [streamP, stream, process_message, fflush, fprintf_s_newline,
    FS.setFile, List.append_assoc]

theorem foldl_step_buffer (msgs : List glirc_message) (p : FILE × FS)
    (hp : p.1.buffer = []) : (msgs.foldl step p).1.buffer = [] := by
  induction msgs generalizing p with
  | nil => exact hp
  | cons m ms ih => exact ih (step p m) rfl

theorem run_state (fs0 : FS) (msgs : List glirc_message) (h : FILE) (fs : FS)
    (hr : run fs0 msgs = some (h, fs)) : h.buffer = [] := by
  unfold run at hr
  by_cases hc : fs0.canOpen "sample-output.txt"
  · simp only [start, fopen, hc, if_true] at hr
    have hb := foldl_step_buffer msgs
      ({ name := "sample-output.txt", mode := "w", buffer := [], pos := 0 },
        fs0.setFile "sample-output.txt" []) rfl
    rw [Option.some.inj hr] at hb
    exact hb
  · simp [start, fopen, hc] at hr

theorem takeWhile_length_le (p : Byte → Bool) (l : List Byte) (i : Nat)
    (b : Byte) (hget : l[i]? = some b) (hb : p b = false) :
    (l.takeWhile p).length ≤ i := by
  induction l generalizing i with
  | nil => simp at hget
  | cons x xs ih =>
    cases i with
    | zero =>
      simp at hget
      subst hget
      simp [List.takeWhile_cons, hb]
    | succ j =>
      simp at hget
      by_cases hx : p x
      · simp only [List.takeWhile_cons, hx, List.length_cons]
        exact Nat.succ_le_succ (ih j hget)
      · simp [List.takeWhile_cons, hx]

/-- Claim C1, counterexample: when the command bytes are 65 0 66 with
length 3, process_message does not append those three bytes and a
newline; the NUL cuts the line short, so the claim as stated fails. -/
theorem C1_counterexample :
    ¬ streamP (process_message logFILE logFS msgNulCmd).1 =
        stream logFILE logFS ++
          (msgNulCmd.command.str.take msgNulCmd.command.len ++ [newlineByte]) := by
  decide

/-- Claim C1, amended: process_message appends to the stream exactly the
strndup image of the command (its first len bytes cut at the first NUL)
followed by one newline, and a second message with an equal command field
produces the same stream, so the remainder of the message (pfx, params,
tags) contributes nothing to the output. -/
theorem C1_appends_command_name (S : FILE) (fs : FS) (msg msg2 : glirc_message)
    (hcmd : msg2.command = msg.command) :
    streamP (process_message S fs msg).1 =
      stream S fs ++ (strndup msg.command.str msg.command.len ++ [newlineByte])
    ∧ streamP (process_message S fs msg2).1 =
        streamP (process_message S fs msg).1 := by
  refine ⟨process_message_stream S fs msg, ?_⟩
  rw [process_message_stream, process_message_stream, hcmd]

/-- Claim C1, witness at concrete inputs: a PING message and a second
message equal on the command but with different pfx, params and tags. -/
theorem C1_appends_command_name_witness :
    streamP (process_message logFILE logFS msgPing).1 =
      stream logFILE logFS ++
        (strndup msgPing.command.str msgPing.command.len ++ [newlineByte])
    ∧ streamP (process_message logFILE logFS msgPing2).1 =
        streamP (process_message logFILE logFS msgPing).1 :=
  C1_appends_command_name logFILE logFS msgPing msgPing2 rfl

/-- Claim C2: the extension value registers start, stop and
process_message, and any extension record with those three hooks is the
extension value itself, so no other hook is provided. -/
theorem C2_exactly_three_hooks (e : glirc_extension) (h1 : e.start = start)
    (h2 : e.stop = stop) (h3 : e.process_message = process_message) :
    extension.start = start ∧ extension.stop = stop
    ∧ extension.process_message = process_message ∧ e = extension := by
  refine ⟨rfl, rfl, rfl, ?_⟩
  cases e
  simp_all [extension]

/-- Claim C2, witness: the extension value itself satisfies the three
hook equations. -/
theorem C2_exactly_three_hooks_witness :
    extension.start = start ∧ extension.stop = stop
    ∧ extension.process_message = process_message ∧ extension = extension :=
  C2_exactly_three_hooks extension rfl rfl rfl

/-- Claim C3: start is exactly fopen of "sample-output.txt" in mode "w",
returning none unchecked when the open fails, and stop and
process_message act on the state they are handed with no error check:
stop is fclose and process_message is the fprintf plus fflush pipeline,
in every state. -/
theorem C3_no_failure_handling (fs : FS) (S : FILE) (msg : glirc_message)
    (hfail : fs.canOpen "sample-output.txt" = false) :
    start fs = fopen fs "sample-output.txt" "w"
    ∧ (start fs).1 = none
    ∧ stop S fs = fclose S fs
    ∧ (process_message S fs msg).1 =
        fflush (fprintf_s_newline S (strndup msg.command.str msg.command.len)) fs := by
  refine ⟨rfl, ?_, rfl, rfl⟩
  simp [start, fopen, hfail]

/-- Claim C3, witness: in a file system where every open fails, start
returns none and the other hooks still act unchecked. -/
theorem C3_no_failure_handling_witness :
    start noOpenFS = fopen noOpenFS "sample-output.txt" "w"
    ∧ (start noOpenFS).1 = none
    ∧ stop logFILE noOpenFS = fclose logFILE noOpenFS
    ∧ (process_message logFILE noOpenFS msgPing).1 =
        fflush (fprintf_s_newline logFILE
          (strndup msgPing.command.str msgPing.command.len)) noOpenFS :=
  C3_no_failure_handling noOpenFS logFILE msgPing rfl

/-- Claim C4: two calls of process_message whose messages agree on the
command field (str and len) append the same byte list to their streams,
whatever handle and file system each call starts from. -/
theorem C4_handler_deterministic (S1 S2 : FILE) (fs1 fs2 : FS)
    (m1 m2 : glirc_message) (hstr : m1.command.str = m2.command.str)
    (hlen : m1.command.len = m2.command.len) :
    streamP (process_message S1 fs1 m1).1 =
      stream S1 fs1 ++ (strndup m1.command.str m1.command.len ++ [newlineByte])
    ∧ streamP (process_message S2 fs2 m2).1 =
      stream S2 fs2 ++ (strndup m1.command.str m1.command.len ++ [newlineByte]) := by
  refine ⟨process_message_stream S1 fs1 m1, ?_⟩
  rw [process_message_stream, hstr, hlen]

/-- Claim C4, witness: a fresh state and the state reached after a
previous PING both append the same bytes for command PING. -/
theorem C4_handler_deterministic_witness :
    streamP (process_message logFILE logFS msgPing).1 =
      stream logFILE logFS ++
        (strndup msgPing.command.str msgPing.command.len ++ [newlineByte])
    ∧ streamP (process_message reachedState.1 reachedState.2 msgPing2).1 =
      stream reachedState.1 reachedState.2 ++
        (strndup msgPing.command.str msgPing.command.len ++ [newlineByte]) :=
  C4_handler_deterministic logFILE reachedState.1 logFS reachedState.2
    msgPing msgPing2 rfl rfl

/-- Claim C5: in any state reached by start followed by any sequence of
delivered messages, stop is exactly fclose on the handle start returned,
and it leaves the file system unchanged: it writes no bytes and modifies
nothing else. -/
theorem C5_stop_closes_and_nothing_else (fs0 : FS) (msgs : List glirc_message)
    (h : FILE) (fs : FS) (hr : run fs0 msgs = some (h, fs)) :
    stop h fs = fclose h fs ∧ stop h fs = fs := by
  refine ⟨rfl, ?_⟩
  have hb : h.buffer = [] := run_state fs0 msgs h fs hr
  simp only [stop, fclose, fflush]
  rw [hb, List.append_nil]
  exact FS.setFile_self fs h.name

/-- Claim C5, witness: the state reached by starting and delivering one
PING message. -/
theorem C5_stop_closes_and_nothing_else_witness :
    stop reachedState.1 reachedState.2 = fclose reachedState.1 reachedState.2
    ∧ stop reachedState.1 reachedState.2 = reachedState.2 :=
  C5_stop_closes_and_nothing_else logFS [msgPing] reachedState.1 reachedState.2 rfl

/-- Claim C6: whenever start succeeds, the log file is empty immediately
afterwards, so contents from a previous run are discarded. -/
theorem C6_start_truncates (fs : FS) (h : FILE) (fs1 : FS)
    (hs : start fs = (some h, fs1)) :
    fs1.files "sample-output.txt" = [] := by
  have hfst : (start fs).1 = some h := congrArg Prod.fst hs
  have hsnd : (start fs).2 = fs1 := congrArg Prod.snd hs
  by_cases hc : fs.canOpen "sample-output.txt"
  · rw [← hsnd]
    simp [start, fopen, hc, FS.setFile]
  · simp [start, fopen, hc] at hfst

/-- Claim C6, witness: a file system whose log file holds stale bytes
1 2 3; after start the log file is empty. -/
theorem C6_start_truncates_witness :
    staleFS.files "sample-output.txt" = [1, 2, 3]
    ∧ ((start staleFS).2).files "sample-output.txt" = [] :=
  ⟨rfl, C6_start_truncates staleFS logFILE (start staleFS).2 rfl⟩

/-- Claim C7: the logged line is the part of the first len bytes of the
command that precedes the first NUL.  For a command with no NUL among
its first len bytes (and len within the bytes available) exactly len
bytes are logged; for a command with a NUL at index i below len, the
logged line stops no later than index i, so the bytes after the NUL are
dropped. -/
theorem C7_nul_truncation (S : FILE) (fs : FS) (msg msgn : glirc_message)
    (i : Nat) (hi : i < msgn.command.len)
    (hz : msgn.command.str[i]? = some nulByte)
    (hnul : nulByte ∉ msg.command.str.take msg.command.len)
    (hlen : msg.command.len ≤ msg.command.str.length) :
    streamP (process_message S fs msg).1 =
      stream S fs ++ (strndup msg.command.str msg.command.len ++ [newlineByte])
    ∧ strndup msg.command.str msg.command.len =
        msg.command.str.take msg.command.len
    ∧ (strndup msg.command.str msg.command.len).length = msg.command.len
    ∧ streamP (process_message S fs msgn).1 =
      stream S fs ++ (strndup msgn.command.str msgn.command.len ++ [newlineByte])
    ∧ (strndup msgn.command.str msgn.command.len).length ≤ i := by
  have h2 : strndup msg.command.str msg.command.len =
      msg.command.str.take msg.command.len := by
    unfold strndup
    apply List.takeWhile_eq_self_iff.mpr
    intro x hx
    simp only [bne_iff_ne, ne_eq]
    intro hx0
    exact hnul (hx0 ▸ hx)
  refine ⟨process_message_stream S fs msg, h2, ?_, process_message_stream S fs msgn, ?_⟩
  · rw [h2, List.length_take]
    exact Nat.min_eq_left hlen
  · unfold strndup
    apply takeWhile_length_le _ _ i nulByte
    · rw [List.getElem?_take_of_lt hi]
      exact hz
    · decide

/-- Claim C7, witness: a PING command with no NUL logs all four bytes;
the command 65 0 66 of length 3 logs at most one byte. -/
theorem C7_nul_truncation_witness :
    streamP (process_message logFILE logFS msgPing).1 =
      stream logFILE logFS ++
        (strndup msgPing.command.str msgPing.command.len ++ [newlineByte])
    ∧ strndup msgPing.command.str msgPing.command.len =
        msgPing.command.str.take msgPing.command.len
    ∧ (strndup msgPing.command.str msgPing.command.len).length =
        msgPing.command.len
    ∧ streamP (process_message logFILE logFS msgNulCmd).1 =
      stream logFILE logFS ++
        (strndup msgNulCmd.command.str msgNulCmd.command.len ++ [newlineByte])
    ∧ (strndup msgNulCmd.command.str msgNulCmd.command.len).length ≤ 1 :=
  C7_nul_truncation logFILE logFS msgPing msgNulCmd 1 (by decide) (by decide)
    (by decide) (by decide)

/-- Claim C8: process_message returns the message it was given, keeps
the handle identity (name and mode), leaves every other file and the
canOpen predicate unchanged, and changes only the stream contents (one
appended line) and the stream position. -/
theorem C8_frame (S : FILE) (fs : FS) (msg : glirc_message) (n : String)
    (hn : n ≠ S.name) :
    (process_message S fs msg).2 = msg
    ∧ (process_message S fs msg).1.1.name = S.name
    ∧ (process_message S fs msg).1.1.mode = S.mode
    ∧ ((process_message S fs msg).1.2).files n = fs.files n
    ∧ ((process_message S fs msg).1.2).canOpen = fs.canOpen
    ∧ streamP (process_message S fs msg).1 =
        stream S fs ++ (strndup msg.command.str msg.command.len ++ [newlineByte])
    ∧ (process_message S fs msg).1.1.pos =
        S.pos + (strndup msg.command.str msg.command.len).length + 1 := by
  refine ⟨rfl, rfl, rfl, ?_, rfl, process_message_stream S fs msg, rfl⟩
  simp [process_message, fflush, fprintf_s_newline, FS.setFile, hn]

/-- Claim C8, witness: a message with nonempty pfx, params and tags, and
the unrelated file name other.txt. -/
theorem C8_frame_witness :
    (process_message logFILE logFS msgPing2).2 = msgPing2
    ∧ (process_message logFILE logFS msgPing2).1.1.name = logFILE.name
    ∧ (process_message logFILE logFS msgPing2).1.1.mode = logFILE.mode
    ∧ ((process_message logFILE logFS msgPing2).1.2).files "other.txt" =
        logFS.files "other.txt"
    ∧ ((process_message logFILE logFS msgPing2).1.2).canOpen = logFS.canOpen
    ∧ streamP (process_message logFILE logFS msgPing2).1 =
        stream logFILE logFS ++
          (strndup msgPing2.command.str msgPing2.command.len ++ [newlineByte])
    ∧ (process_message logFILE logFS msgPing2).1.1.pos =
        logFILE.pos + (strndup msgPing2.command.str msgPing2.command.len).length + 1 :=
  C8_frame logFILE logFS msgPing2 "other.txt" (by decide)

end SampleExtension
